import Mathlib

/-!
# Verification of the dub-video pipeline orchestrator

Shallow embedding of `src/dub-video.py`.  External collaborators (yt-dlp,
ffmpeg, Whisper, Coqui TTS) are modelled at their interface boundary: the
orchestrator observes only their success/failure and the artifacts they
report, so each external effect is a parameter of the model.  Python
exceptions are modelled as explicit error results; `print` observability is
modelled as an explicit log of events.
-/

namespace DubVideo

/-- One transcribed unit of speech, as returned by Whisper
(`transcribe_audio`, src lines 70-77): start time, end time (seconds) and
the recognized text.  The orchestrator only ever reads the `text` field
(src line 109); times are carried for fidelity to the data model. -/
structure Segment where
  start : Rat
  stop : Rat
  text : String
deriving DecidableEq

/-- `os.path.join dir file` for the simple two-component uses in the script
(src lines 107, 161, 169, 176, 181): joins with a single separator. -/
def joinPath (dir file : String) : String := dir ++ "/" ++ file

/-- Observable console events produced during voice resolution in
`synthesize_segments_tts` (src lines 90-102).  Each constructor corresponds
to one `print` statement of the source. -/
inductive TTSLog where
  /-- src line 90: the `[INFO] Available voices for this model:` header. -/
  | availableVoicesHeader
  /-- src line 92: one `  - <spk>` roster line. -/
  | voiceListing (spk : String)
  /-- src line 99: `[WARN] Voice <v> not found, defaulting to: <first>`. -/
  | warnVoiceNotFound (requested fallback : String)
  /-- src line 102: `[INFO] No voice provided, defaulting to: <first>`. -/
  | infoDefaultVoice (fallback : String)
deriving DecidableEq

/-- Voice-selection policy of `synthesize_segments_tts` (src lines 88-103).
`roster` is the `tts.speakers` attribute of the engine: `none` when the
attribute is absent (`hasattr` false), `some []` when present but empty; in
both of those cases the Python truthiness test `tts.speakers` fails and the
speaker stays `None`.  Returns the resolved speaker together with the
console events emitted. -/
def resolve_speaker (roster : Option (List String)) (voice : Option String) :
    Option String × List TTSLog :=
  match roster with
  | some (s :: rest) =>
    let listing := TTSLog.availableVoicesHeader :: (s :: rest).map TTSLog.voiceListing
    -- `if voice:` (src line 95) is a Python truthiness test: both `None`
    -- and the empty string are falsy and take the `else` branch of
    -- src lines 101-103.
    match voice with
    | some v =>
      if v = "" then (some s, listing ++ [TTSLog.infoDefaultVoice s])
      else if v ∈ s :: rest then (some v, listing)
      else (some s, listing ++ [TTSLog.warnVoiceNotFound v s])
    | none => (some s, listing ++ [TTSLog.infoDefaultVoice s])
  | _ => (none, [])

/-- The Python format `f"segment_\x7bi:04d\x7d"` pads the decimal form of
`i` on the left with zeros to a minimum width of 4 (longer numbers are
printed in full). -/
def pad4 (i : Nat) : String :=
  let s := Nat.repr i
  String.mk (List.replicate (4 - s.length) '0') ++ s

/-- Per-segment output file name, src line 107: `segment_<i:04d>.wav`. -/
def segmentFileName (i : Nat) : String := "segment_" ++ pad4 i ++ ".wav"

/-- One call to `tts.tts_to_file` (src lines 108-114): the exact arguments
handed to the synthesis engine for one segment. -/
structure TTSCall where
  text : String
  file_path : String
  speaker : Option String
  language : Option String
  speaker_wav : Option String
deriving DecidableEq

/-- The loop body of `synthesize_segments_tts` (src lines 106-115):
`for i, seg in enumerate(segments)` starting at index `i`, emitting one
engine call per segment with the already-resolved speaker. -/
def synthCalls (speaker language speaker_wav : Option String) (out_dir : String) :
    Nat → List Segment → List TTSCall
  | _, [] => []
  | i, seg :: rest =>
    ⟨seg.text, joinPath out_dir (segmentFileName i), speaker, language, speaker_wav⟩ ::
      synthCalls speaker language speaker_wav out_dir (i + 1) rest

/-- Result of `synthesize_segments_tts`: the resolved speaker, the console
events, the engine calls made (in order) and the returned `out_files`
list (src line 115 appends each output path after its call, so `out_files`
is the per-call `file_path` list in call order). -/
structure SynthResult where
  speaker : Option String
  log : List TTSLog
  calls : List TTSCall
  out_files : List String

/-- `synthesize_segments_tts` (src lines 83-117).  The engine object
`TTS(model_name)` is external; the model is parameterized by the roster it
exposes (`tts.speakers`).  The speaker is resolved once (src lines 88-103)
before the per-segment loop (src lines 106-115). -/
def synthesize_segments_tts (roster : Option (List String)) (segments : List Segment)
    (out_dir : String) (voice language speaker_wav : Option String) : SynthResult :=
  let r := resolve_speaker roster voice
  let calls := synthCalls r.1 language speaker_wav out_dir 0 segments
  ⟨r.1, r.2, calls, calls.map TTSCall.file_path⟩

theorem synthCalls_length (spk lang wav : Option String) (dir : String) :
    ∀ (i0 : Nat) (segs : List Segment),
      (synthCalls spk lang wav dir i0 segs).length = segs.length := by
  intro i0 segs
  induction segs generalizing i0 with
  | nil => rfl
  | cons s rest ih => simp [synthCalls, ih]

theorem synthCalls_getElem (spk lang wav : Option String) (dir : String) :
    ∀ (segs : List Segment) (i0 i : Nat),
      (synthCalls spk lang wav dir i0 segs)[i]? =
        (segs[i]?).map fun seg =>
          (⟨seg.text, joinPath dir (segmentFileName (i0 + i)), spk, lang, wav⟩ : TTSCall) := by
  intro segs
  induction segs with
  | nil => intro i0 i; simp [synthCalls]
  | cons s rest ih =>
    intro i0 i
    cases i with
    | zero => simp [synthCalls]
    | succ i =>
      simp only [synthCalls, List.getElem?_cons_succ, ih (i0 + 1) i]
      have : i0 + 1 + i = i0 + (i + 1) := by omega
      rw [this]

theorem synthCalls_speaker (spk lang wav : Option String) (dir : String) :
    ∀ (i0 : Nat) (segs : List Segment) (c : TTSCall),
      c ∈ synthCalls spk lang wav dir i0 segs → c.speaker = spk := by
  intro i0 segs
  induction segs generalizing i0 with
  | nil => intro c hc; simp [synthCalls] at hc
  | cons s rest ih =>
    intro c hc
    simp only [synthCalls, List.mem_cons] at hc
    rcases hc with h | h
    · rw [h]
    · exact ih (i0 + 1) c h

/-- The single-quote character used by the ffmpeg concat directive lines. -/
def squote : String := (Char.ofNat 39).toString

/-- One line of the concat list file written by `concatenate_audio`
(src line 129): `file '<abspath of file>'`.  `abspath` is the OS path
resolution `os.path.abspath`, an external function. -/
def fileLine (abspath : String → String) (file : String) : String :=
  "file " ++ squote ++ abspath file ++ squote

/-- Observable behavior of `concatenate_audio` (src lines 124-139): the
lines of the list file it writes (in write order), the ffmpeg command it
runs, and the fact that the list file is removed afterwards
(src line 139). -/
structure ConcatResult where
  listLines : List String
  cmd : List String
  listFileRemoved : Bool

/-- `concatenate_audio` (src lines 124-139), parameterized by the external
`os.path.abspath`. -/
def concatenate_audio (abspath : String → String) (files : List String)
    (output_path : String) : ConcatResult :=
  ⟨files.map (fileLine abspath),
   ["ffmpeg", "-y", "-f", "concat", "-safe", "0", "-i", output_path ++ "_list.txt",
    "-c", "copy", output_path],
   true⟩

/-- `combine_audio_video` (src lines 54-64): the exact ffmpeg argument
vector used for the final remux. -/
def combine_audio_video (video_path audio_path output_path : String) : List String :=
  ["ffmpeg", "-y", "-i", video_path, "-i", audio_path, "-c:v", "copy",
   "-map", "0:v:0", "-map", "1:a:0", output_path]

/-- The values following each occurrence of `flag` in an argument vector
(ffmpeg repeated-option convention). -/
def flagValues (flag : String) : List String → List String
  | a :: b :: rest => if a = flag then b :: flagValues flag rest else flagValues flag (b :: rest)
  | _ => []

/-! ## The pipeline orchestrator (`main`, src lines 145-191).

External collaborators are modelled by an `Env` recording how each external
call would behave during the run.  The `try` body of `main` is
`pipelineBody`; the `finally` clause (src lines 189-191) is the wrapper
`main_run`, which marks the workspace removed on every path. -/

/-- The pipeline stages whose external operations `main` can invoke. -/
inductive Stage where
  | fetch
  | extract
  | transcribe
  | synthesize
  | concat
  | remux
deriving DecidableEq

/-- How a run can fail: the `FileNotFoundError("No valid video file
provided.")` of src line 166, a `CalledProcessError` from `run_cmd`
(src line 30) at some stage, or an exception from an in-process engine
call (Whisper or Coqui TTS). -/
inductive PipelineError where
  | noValidInput
  | toolFailure (s : Stage)
  | engineFailure (s : Stage)
deriving DecidableEq

/-- The outcome of the `try` body: the output path on success, an error
otherwise. -/
inductive RunResult where
  | ok (out : String)
  | fail (e : PipelineError)
deriving DecidableEq

/-- Behavior of the external world during one run: the filesystem existence
check, and whether each external invocation succeeds.  `transcribeResult`
is `none` when the Whisper call raises, otherwise the segment list it
returns. -/
structure Env where
  fileExists : String → Bool
  fetchOk : Bool
  extractOk : Bool
  transcribeResult : Option (List Segment)
  ttsOk : Bool
  concatOk : Bool
  remuxOk : Bool

/-- The parsed command-line arguments (src lines 146-155), with the
defaults already applied by argparse. -/
structure Args where
  video : Option String
  url : Option String
  output : String
  language : Option String
  whisper_model : String
  tts_model : String
  voice : Option String
  speaker_wav : Option String

/-- Observable trace of one run: the stages whose external operation was
invoked (in order), the source video path used by the pipeline (set when
Source Acquisition completed), the outcome, and whether the temporary
workspace was removed. -/
structure RunTrace where
  stagesRun : List Stage
  sourceVideo : Option String
  result : RunResult
  tempDirRemoved : Bool

/-- Stages after Source Acquisition (src lines 168-187): extraction,
transcription, synthesis, concatenation, remux, each aborting the body on
failure. -/
def stagesFrom (env : Env) (args : Args) (p : String) (pre : List Stage) :
    List Stage × Option String × RunResult :=
  let s1 := pre ++ [Stage.extract]
  if env.extractOk then
    let s2 := s1 ++ [Stage.transcribe]
    match env.transcribeResult with
    | some _segs =>
      let s3 := s2 ++ [Stage.synthesize]
      if env.ttsOk then
        let s4 := s3 ++ [Stage.concat]
        if env.concatOk then
          let s5 := s4 ++ [Stage.remux]
          if env.remuxOk then (s5, some p, RunResult.ok args.output)
          else (s5, some p, RunResult.fail (PipelineError.toolFailure Stage.remux))
        else (s4, some p, RunResult.fail (PipelineError.toolFailure Stage.concat))
      else (s3, some p, RunResult.fail (PipelineError.engineFailure Stage.synthesize))
    | none => (s2, some p, RunResult.fail (PipelineError.engineFailure Stage.transcribe))
  else (s1, some p, RunResult.fail (PipelineError.toolFailure Stage.extract))

/-- The validity check of src lines 165-166: `if not video_path or not
os.path.exists(video_path): raise FileNotFoundError(...)`.  Python
truthiness makes both `None` and the empty string fail the first test. -/
def sourceCheck (env : Env) (args : Args) (vp : Option String) (pre : List Stage) :
    List Stage × Option String × RunResult :=
  match vp with
  | none => (pre, none, RunResult.fail PipelineError.noValidInput)
  | some p =>
    if p = "" then (pre, none, RunResult.fail PipelineError.noValidInput)
    else if env.fileExists p then stagesFrom env args p pre
    else (pre, none, RunResult.fail PipelineError.noValidInput)

/-- The `try` body of `main` (src lines 158-187).  Source resolution
(src lines 159-163): `video_path = args.video`; when a URL is supplied the
path is replaced by `<tempDir>/input.mp4` and the fetch tool is invoked,
aborting the body if it exits non-zero. -/
def pipelineBody (env : Env) (tempDir : String) (args : Args) :
    List Stage × Option String × RunResult :=
  match args.url with
  | some _ =>
    if env.fetchOk then
      sourceCheck env args (some (joinPath tempDir "input.mp4")) [Stage.fetch]
    else ([Stage.fetch], none, RunResult.fail (PipelineError.toolFailure Stage.fetch))
  | none => sourceCheck env args args.video []

/-- `main` (src lines 145-191): run the body under `try`, then remove the
workspace in the `finally` clause (src lines 189-191) regardless of the
outcome. -/
def main_run (env : Env) (tempDir : String) (args : Args) : RunTrace :=
  let b := pipelineBody env tempDir args
  ⟨b.1, b.2.1, b.2.2, true⟩

/-- Decimal digit characters of `n`, most significant first. -/
def decDigits (n : Nat) : List Char :=
  if n < 10 then [Nat.digitChar n]
  else decDigits (n / 10) ++ [Nat.digitChar (n % 10)]
decreasing_by exact Nat.div_lt_self (by omega) (by omega)

theorem decDigits_lt (n : Nat) (h : n < 10) : decDigits n = [Nat.digitChar n] := by
  rw [decDigits]; simp [h]

theorem decDigits_ge (n : Nat) (h : ¬ n < 10) :
    decDigits n = decDigits (n / 10) ++ [Nat.digitChar (n % 10)] := by
  rw [decDigits]; simp [h]

theorem toDigitsCore_eq :
    ∀ (fuel n : Nat) (ds : List Char), n < fuel →
      Nat.toDigitsCore 10 fuel n ds = decDigits n ++ ds := by
  intro fuel
  induction fuel with
  | zero => intro n ds h; omega
  | succ f ih =>
    intro n ds h
    simp only [Nat.toDigitsCore]
    by_cases h10 : n / 10 = 0
    · have hn : n < 10 := by omega
      rw [if_pos h10, decDigits_lt n hn, Nat.mod_eq_of_lt hn]
      rfl
    · have hn : ¬ n < 10 := by omega
      have hdiv : n / 10 < f := by
        have := Nat.div_lt_self (show 0 < n by omega) (show 1 < 10 by omega)
        omega
      rw [if_neg h10, ih (n / 10) _ hdiv, decDigits_ge n hn]
      simp

theorem repr_eq_decDigits (n : Nat) : Nat.repr n = String.mk (decDigits n) := by
  show (Nat.toDigits 10 n).asString = _
  rw [Nat.toDigits, toDigitsCore_eq (n + 1) n [] (Nat.lt_succ_self n)]
  simp [List.asString]

/-- The `k`-digit zero-padded decimal form of `n` (meaningful for `n < 10^k`):
digit characters most significant first. -/
def padDigits : Nat → Nat → List Char
  | 0, _ => []
  | k+1, n => Nat.digitChar (n / 10 ^ k) :: padDigits k (n % 10 ^ k)

theorem padDigits_length : ∀ (k n : Nat), (padDigits k n).length = k := by
  intro k
  induction k with
  | zero => intro n; rfl
  | succ k ih => intro n; simp [padDigits, ih]

theorem padDigits_split (k : Nat) :
    ∀ n, n < 10 ^ (k + 1) →
      padDigits (k + 1) n = padDigits k (n / 10) ++ [Nat.digitChar (n % 10)] := by
  induction k with
  | zero =>
    intro n h
    norm_num at h
    simp [padDigits, Nat.mod_eq_of_lt h, Nat.div_eq_of_lt h]
  | succ k ih =>
    intro n h
    have h1 : n % 10 ^ (k + 1) < 10 ^ (k + 1) := Nat.mod_lt _ (by positivity)
    have e1 : n / 10 ^ (k + 1) = n / 10 / 10 ^ k := by
      rw [Nat.div_div_eq_div_mul]; ring_nf
    have e2 : n % 10 ^ (k + 1) % 10 = n % 10 := by
      apply Nat.mod_mod_of_dvd; exact dvd_pow_self 10 (Nat.succ_ne_zero k)
    have e3 : n % 10 ^ (k + 1) / 10 = n / 10 % 10 ^ k := by
      have : (10 : Nat) ^ (k + 1) = 10 * 10 ^ k := by ring
      rw [this, Nat.mod_mul_right_div_self]
    calc padDigits (k + 2) n
        = Nat.digitChar (n / 10 ^ (k + 1)) :: padDigits (k + 1) (n % 10 ^ (k + 1)) := rfl
      _ = Nat.digitChar (n / 10 ^ (k + 1)) ::
            (padDigits k (n % 10 ^ (k + 1) / 10) ++ [Nat.digitChar (n % 10 ^ (k + 1) % 10)]) := by
          rw [ih _ h1]
      _ = Nat.digitChar (n / 10 / 10 ^ k) ::
            (padDigits k (n / 10 % 10 ^ k) ++ [Nat.digitChar (n % 10)]) := by
          rw [e1, e2, e3]
      _ = padDigits (k + 1) (n / 10) ++ [Nat.digitChar (n % 10)] := rfl

theorem padDigits_eq_decDigits :
    ∀ (k n : Nat), 10 ^ k ≤ n → n < 10 ^ (k + 1) → padDigits (k + 1) n = decDigits n := by
  intro k
  induction k with
  | zero =>
    intro n h1 h2
    norm_num at h2
    rw [decDigits_lt n h2]
    simp [padDigits, Nat.mod_eq_of_lt h2, Nat.div_eq_of_lt h2]
  | succ k ih =>
    intro n h1 h2
    have hn : ¬ n < 10 := by
      have : (10 : Nat) ≤ 10 ^ (k + 1) := by
        calc (10 : Nat) = 10 ^ 1 := (pow_one 10).symm
        _ ≤ 10 ^ (k + 1) := Nat.pow_le_pow_right (by omega) (by omega)
      omega
    rw [padDigits_split (k + 1) n h2, decDigits_ge n hn]
    congr 1
    apply ih
    · rw [Nat.le_div_iff_mul_le (by omega : 0 < 10)]
      calc 10 ^ k * 10 = 10 ^ (k + 1) := by ring
      _ ≤ n := h1
    · rw [Nat.div_lt_iff_lt_mul (by omega : 0 < 10)]
      calc n < 10 ^ (k + 2) := h2
      _ = 10 ^ (k + 1) * 10 := by ring

theorem decDigits_length_le :
    ∀ (k n : Nat), n < 10 ^ (k + 1) → (decDigits n).length ≤ k + 1 := by
  intro k
  induction k with
  | zero =>
    intro n h
    norm_num at h
    rw [decDigits_lt n h]; simp
  | succ k ih =>
    intro n h
    by_cases hn : n < 10
    · rw [decDigits_lt n hn]; simp
    · rw [decDigits_ge n hn]
      have : n / 10 < 10 ^ (k + 1) := by
        rw [Nat.div_lt_iff_lt_mul (by omega : 0 < 10)]
        calc n < 10 ^ (k + 2) := h
        _ = 10 ^ (k + 1) * 10 := by ring
      have := ih _ this
      simp only [List.length_append, List.length_cons, List.length_nil]
      omega

theorem digitChar_zero : Nat.digitChar 0 = '0' := rfl

theorem padDigits_pad :
    ∀ (k n : Nat), n < 10 ^ (k + 1) →
      padDigits (k + 1) n =
        List.replicate (k + 1 - (decDigits n).length) '0' ++ decDigits n := by
  intro k
  induction k with
  | zero =>
    intro n h
    norm_num at h
    rw [decDigits_lt n h]
    simp [padDigits, Nat.mod_eq_of_lt h, Nat.div_eq_of_lt h]
  | succ k ih =>
    intro n h
    by_cases hk : n < 10 ^ (k + 1)
    · have hlen : (decDigits n).length ≤ k + 1 := decDigits_length_le k n hk
      have hd : n / 10 ^ (k + 1) = 0 := Nat.div_eq_of_lt hk
      have hm : n % 10 ^ (k + 1) = n := Nat.mod_eq_of_lt hk
      calc padDigits (k + 2) n
          = Nat.digitChar (n / 10 ^ (k + 1)) :: padDigits (k + 1) (n % 10 ^ (k + 1)) := rfl
        _ = '0' :: padDigits (k + 1) n := by rw [hd, hm, digitChar_zero]
        _ = '0' :: (List.replicate (k + 1 - (decDigits n).length) '0' ++ decDigits n) := by
            rw [ih n hk]
        _ = List.replicate (k + 2 - (decDigits n).length) '0' ++ decDigits n := by
            have : k + 2 - (decDigits n).length = (k + 1 - (decDigits n).length) + 1 := by omega
            rw [this, List.replicate_succ]
            rfl
    · have h1 : 10 ^ (k + 1) ≤ n := by omega
      rw [padDigits_eq_decDigits (k + 1) n h1 h]
      have : (decDigits n).length = k + 2 := by
        have := padDigits_length (k + 2) n
        rw [padDigits_eq_decDigits (k + 1) n h1 h] at this
        exact this
      rw [this]
      simp

/-- For indices below 10000 the Python zero-padded format produces exactly
four digit characters. -/
theorem pad4_eq_padDigits (n : Nat) (h : n < 10000) :
    pad4 n = String.mk (padDigits 4 n) := by
  have h4 : n < 10 ^ (3 + 1) := by norm_num; omega
  show String.mk (List.replicate (4 - (Nat.repr n).length) '0') ++ Nat.repr n = _
  rw [repr_eq_decDigits]
  have hlen : (String.mk (decDigits n)).length = (decDigits n).length := rfl
  rw [hlen]
  rw [padDigits_pad 3 n h4]
  rfl

theorem digitChar_mono :
    ∀ d, d < 10 → ∀ e, e < 10 → d < e → Nat.digitChar d < Nat.digitChar e := by
  decide

theorem padDigits_lex :
    ∀ (k i j : Nat), i < j → j < 10 ^ k →
      List.Lex (fun a b : Char => a < b) (padDigits k i) (padDigits k j) := by
  intro k
  induction k with
  | zero => intro i j hij hj; norm_num at hj; omega
  | succ k ih =>
    intro i j hij hj
    have hjd : j / 10 ^ k < 10 := by
      rw [Nat.div_lt_iff_lt_mul (by positivity : 0 < (10:Nat) ^ k)]
      calc j < 10 ^ (k + 1) := hj
      _ = 10 * 10 ^ k := by ring
    have hid : i / 10 ^ k ≤ j / 10 ^ k := Nat.div_le_div_right (Nat.le_of_lt hij)
    rcases Nat.lt_or_ge (i / 10 ^ k) (j / 10 ^ k) with hlt | hge
    · exact List.Lex.rel (digitChar_mono _ (by omega) _ hjd hlt)
    · have heq : i / 10 ^ k = j / 10 ^ k := by omega
      have hi' := Nat.div_add_mod i (10 ^ k)
      have hj' := Nat.div_add_mod j (10 ^ k)
      have hmod : i % 10 ^ k < j % 10 ^ k := by
        have h1 : 10 ^ k * (i / 10 ^ k) + i % 10 ^ k < 10 ^ k * (j / 10 ^ k) + j % 10 ^ k := by
          rw [hi', hj']; exact hij
        rw [heq] at h1; omega
      have hjm : j % 10 ^ k < 10 ^ k := Nat.mod_lt _ (by positivity)
      show List.Lex _ (Nat.digitChar (i / 10 ^ k) :: padDigits k (i % 10 ^ k)) _
      rw [heq]
      exact List.Lex.cons (ih _ _ hmod hjm)

theorem lex_append_of_length_eq :
    ∀ (a b x y : List Char), a.length = b.length →
      List.Lex (fun p q : Char => p < q) a b →
      List.Lex (fun p q : Char => p < q) (a ++ x) (b ++ y) := by
  intro a
  induction a with
  | nil =>
    intro b x y hl h
    have hb : b = [] := by cases b <;> simp_all
    subst hb
    exact absurd h (List.Lex.not_nil_right _ _)
  | cons c as ih =>
    intro b x y hl h
    cases b with
    | nil => simp at hl
    | cons d bs =>
      cases h with
      | rel hr => exact List.Lex.rel hr
      | cons h' => exact List.Lex.cons (ih bs x y (by simpa using hl) h')

/-- Strict lexicographic order of the per-segment output paths, for indices
below 10000 (where the zero-padding gives equal-width names). -/
theorem segmentPath_lt (dir : String) (i j : Nat) (hij : i < j) (hj : j < 10000) :
    joinPath dir (segmentFileName i) < joinPath dir (segmentFileName j) := by
  rw [String.lt_iff_toList_lt]
  show (dir ++ "/" ++ ("segment_" ++ pad4 i ++ ".wav")).toList <
       (dir ++ "/" ++ ("segment_" ++ pad4 j ++ ".wav")).toList
  rw [pad4_eq_padDigits i (by omega), pad4_eq_padDigits j hj]
  simp only [String.toList, String.data_append]
  show List.Lex (fun a b : Char => a < b) _ _
  simp only [List.append_assoc]
  apply List.Lex.append_left
  apply List.Lex.append_left
  apply List.Lex.append_left
  exact lex_append_of_length_eq _ _ _ _
    (by rw [padDigits_length, padDigits_length])
    (padDigits_lex 4 i j hij (by norm_num; omega))

/-! ## Claim C1 -/

/-- Claim C2: for every run — any external behavior, any temp directory,
any arguments, terminating in success or in failure at any stage — the
temporary workspace is removed before the run returns.  The model places
the removal in the wrapper corresponding to the `finally` clause of
src lines 189-191, so it applies to every exit path of the body. -/
theorem claim_C2_workspace_removed (env : Env) (tempDir : String) (args : Args) :
    (main_run env tempDir args).tempDirRemoved = true := rfl

/-! ## Claim C5 -/

theorem synth_speaker (roster : Option (List String)) (segs : List Segment)
    (dir : String) (voice lang wav : Option String) :
    (synthesize_segments_tts roster segs dir voice lang wav).speaker =
      (resolve_speaker roster voice).1 := rfl

theorem synth_log (roster : Option (List String)) (segs : List Segment)
    (dir : String) (voice lang wav : Option String) :
    (synthesize_segments_tts roster segs dir voice lang wav).log =
      (resolve_speaker roster voice).2 := rfl

theorem synth_calls_length (roster : Option (List String)) (segs : List Segment)
    (dir : String) (voice lang wav : Option String) :
    (synthesize_segments_tts roster segs dir voice lang wav).calls.length = segs.length :=
  synthCalls_length _ _ _ _ 0 segs

theorem synth_calls_getElem (roster : Option (List String)) (segs : List Segment)
    (dir : String) (voice lang wav : Option String) (i : Nat) :
    (synthesize_segments_tts roster segs dir voice lang wav).calls[i]? =
      (segs[i]?).map fun seg =>
        (⟨seg.text, joinPath dir (segmentFileName i),
          (resolve_speaker roster voice).1, lang, wav⟩ : TTSCall) := by
  show (synthCalls (resolve_speaker roster voice).1 lang wav dir 0 segs)[i]? = _
  rw [synthCalls_getElem]
  simp

theorem synth_calls_speaker (roster : Option (List String)) (segs : List Segment)
    (dir : String) (voice lang wav : Option String) (c : TTSCall)
    (hc : c ∈ (synthesize_segments_tts roster segs dir voice lang wav).calls) :
    c.speaker = (resolve_speaker roster voice).1 :=
  synthCalls_speaker _ _ _ _ 0 segs c hc

theorem synth_out_files_length (roster : Option (List String)) (segs : List Segment)
    (dir : String) (voice lang wav : Option String) :
    (synthesize_segments_tts roster segs dir voice lang wav).out_files.length = segs.length := by
  show ((synthCalls _ _ _ _ 0 segs).map TTSCall.file_path).length = _
  rw [List.length_map, synthCalls_length]

theorem synth_out_files_getElem (roster : Option (List String)) (segs : List Segment)
    (dir : String) (voice lang wav : Option String) (i : Nat) :
    (synthesize_segments_tts roster segs dir voice lang wav).out_files[i]? =
      (segs[i]?).map fun _ => joinPath dir (segmentFileName i) := by
  show ((synthCalls (resolve_speaker roster voice).1 lang wav dir 0 segs).map
    TTSCall.file_path)[i]? = _
  rw [List.getElem?_map, synthCalls_getElem]
  cases segs[i]? <;> simp

/-! ## Claim C3 -/

/-- Claim C3 counterexample: the empty string is a requestable voice
(`--voice ""`) that is not in the roster, yet the run emits NO warning:
the truthiness test `if voice:` (src line 95) treats it as no request, so
the program takes the informational-default branch of src lines 101-103.
The resolved speaker is still the first roster entry. -/
theorem claim_C3_counterexample :
    "" ∉ ["narrator_a", "narrator_b"] ∧
    (synthesize_segments_tts (some ["narrator_a", "narrator_b"])
      [⟨0, 1, "Hello"⟩] "d" (some "") none none).speaker = some "narrator_a" ∧
    TTSLog.warnVoiceNotFound "" "narrator_a" ∉
      (synthesize_segments_tts (some ["narrator_a", "narrator_b"])
        [⟨0, 1, "Hello"⟩] "d" (some "") none none).log ∧
    TTSLog.infoDefaultVoice "narrator_a" ∈
      (synthesize_segments_tts (some ["narrator_a", "narrator_b"])
        [⟨0, 1, "Hello"⟩] "d" (some "") none none).log := by
  refine ⟨by decide, rfl, by decide, by decide⟩

/-- Claim C3 (amended): when the engine exposes a non-empty roster and the
requested voice is non-empty and not in the roster, the resolved speaker
is the first roster entry, the warning is emitted, and synthesis proceeds
over every segment with that speaker — the mismatch is never fatal.  (An
empty-string request is falsy under Python truthiness and degrades to the
informational no-voice default without a warning.)  Determinism of the
fallback is immediate: `resolve_speaker` is a function of the roster and
the request alone. -/
theorem claim_C3_voice_fallback (s0 : String) (rest : List String) (v : String)
    (segs : List Segment) (dir : String) (lang wav : Option String)
    (hv0 : v ≠ "") (hv : v ∉ s0 :: rest) :
    (synthesize_segments_tts (some (s0 :: rest)) segs dir (some v) lang wav).speaker = some s0 ∧
    TTSLog.warnVoiceNotFound v s0 ∈
      (synthesize_segments_tts (some (s0 :: rest)) segs dir (some v) lang wav).log ∧
    (synthesize_segments_tts (some (s0 :: rest)) segs dir (some v) lang wav).calls.length =
      segs.length ∧
    ∀ c ∈ (synthesize_segments_tts (some (s0 :: rest)) segs dir (some v) lang wav).calls,
      c.speaker = some s0 := by
  have hres : resolve_speaker (some (s0 :: rest)) (some v) =
      (some s0, (TTSLog.availableVoicesHeader :: (s0 :: rest).map TTSLog.voiceListing) ++
        [TTSLog.warnVoiceNotFound v s0]) := by
    simp [resolve_speaker, hv0, hv]
  refine ⟨?_, ?_, synth_calls_length _ _ _ _ _ _, ?_⟩
  · rw [synth_speaker, hres]
  · rw [synth_log, hres]; simp
  · intro c hc
    have := synth_calls_speaker _ _ _ _ _ _ c hc
    rw [hres] at this
    exact this

/-- Claim C3 witness, the scenario of spec section 8: requested voice
`en_us_female` against roster `[narrator_a, narrator_b]` resolves to
`narrator_a` with a warning, and both segments are synthesized. -/
theorem claim_C3_witness :
    (synthesize_segments_tts (some ["narrator_a", "narrator_b"])
      [⟨0, 1, "Hello"⟩, ⟨1, 2, "World"⟩] "d" (some "en_us_female") none none).speaker =
        some "narrator_a" ∧
    TTSLog.warnVoiceNotFound "en_us_female" "narrator_a" ∈
      (synthesize_segments_tts (some ["narrator_a", "narrator_b"])
        [⟨0, 1, "Hello"⟩, ⟨1, 2, "World"⟩] "d" (some "en_us_female") none none).log ∧
    (synthesize_segments_tts (some ["narrator_a", "narrator_b"])
      [⟨0, 1, "Hello"⟩, ⟨1, 2, "World"⟩] "d" (some "en_us_female") none none).calls.length = 2 := by
  have h := claim_C3_voice_fallback "narrator_a" ["narrator_b"] "en_us_female"
    [⟨0, 1, "Hello"⟩, ⟨1, 2, "World"⟩] "d" none none (by decide) (by decide)
  exact ⟨h.1, h.2.1, h.2.2.1⟩

/-! ## Claim C4 -/

/-- Claim C4: the voice is resolved exactly once per run — the resolution
`resolve_speaker roster voice` depends only on the roster and the request,
not on any segment — and the one resolved speaker identity is passed to
the synthesis engine for every segment of the run. -/
theorem claim_C4_single_resolution (roster : Option (List String)) (segs : List Segment)
    (dir : String) (voice lang wav : Option String) :
    (synthesize_segments_tts roster segs dir voice lang wav).speaker =
      (resolve_speaker roster voice).1 ∧
    (∀ c ∈ (synthesize_segments_tts roster segs dir voice lang wav).calls,
      c.speaker = (resolve_speaker roster voice).1) ∧
    (∀ c1 ∈ (synthesize_segments_tts roster segs dir voice lang wav).calls,
      ∀ c2 ∈ (synthesize_segments_tts roster segs dir voice lang wav).calls,
        c1.speaker = c2.speaker) := by
  refine ⟨rfl, fun c hc => synth_calls_speaker _ _ _ _ _ _ c hc, fun c1 h1 c2 h2 => ?_⟩
  rw [synth_calls_speaker _ _ _ _ _ _ c1 h1, synth_calls_speaker _ _ _ _ _ _ c2 h2]

/-- Claim C4 witness: on a concrete two-segment run both engine calls carry
the same resolved speaker. -/
theorem claim_C4_witness :
    ∀ c ∈ (synthesize_segments_tts (some ["narrator_a"])
      [⟨0, 1, "Hello"⟩, ⟨1, 2, "World"⟩] "d" none none none).calls,
      c.speaker = (resolve_speaker (some ["narrator_a"]) none).1 :=
  (claim_C4_single_resolution (some ["narrator_a"])
    [⟨0, 1, "Hello"⟩, ⟨1, 2, "World"⟩] "d" none none none).2.1

/-! ## Claim C10 -/

/-- Claim C10: with a non-empty roster and no requested voice, the resolved
speaker is the first roster entry — synthesis never proceeds with an unset
speaker when a roster exists — announced by the informational message, and
no warning is emitted. -/
theorem claim_C10_default_voice (s0 : String) (rest : List String)
    (segs : List Segment) (dir : String) (lang wav : Option String) :
    (synthesize_segments_tts (some (s0 :: rest)) segs dir none lang wav).speaker = some s0 ∧
    TTSLog.infoDefaultVoice s0 ∈
      (synthesize_segments_tts (some (s0 :: rest)) segs dir none lang wav).log ∧
    (∀ a b, TTSLog.warnVoiceNotFound a b ∉
      (synthesize_segments_tts (some (s0 :: rest)) segs dir none lang wav).log) ∧
    ∀ c ∈ (synthesize_segments_tts (some (s0 :: rest)) segs dir none lang wav).calls,
      c.speaker = some s0 := by
  have hres : resolve_speaker (some (s0 :: rest)) none =
      (some s0, (TTSLog.availableVoicesHeader :: (s0 :: rest).map TTSLog.voiceListing) ++
        [TTSLog.infoDefaultVoice s0]) := by
    simp [resolve_speaker]
  refine ⟨?_, ?_, ?_, ?_⟩
  · rw [synth_speaker, hres]
  · rw [synth_log, hres]; simp
  · intro a b
    rw [synth_log, hres]
    simp
  · intro c hc
    have := synth_calls_speaker _ _ _ _ _ _ c hc
    rw [hres] at this
    exact this

/-- Claim C10 witness at a concrete roster and segment list. -/
theorem claim_C10_witness :
    (synthesize_segments_tts (some ["narrator_a", "narrator_b"])
      [⟨0, 1, "Hello"⟩] "d" none none none).speaker = some "narrator_a" :=
  (claim_C10_default_voice "narrator_a" ["narrator_b"] [⟨0, 1, "Hello"⟩] "d" none none).1

/-! ## Claim C8 -/

/-- Claim C8: no filtering and no substitution in the synthesis stage.
Whatever a segment text is — empty or whitespace-only included — the
stage makes exactly one engine call per segment, at the segment index,
with the verbatim text and the standard arguments. -/
theorem claim_C8_no_filtering (roster : Option (List String)) (segs : List Segment)
    (dir : String) (voice lang wav : Option String) :
    (synthesize_segments_tts roster segs dir voice lang wav).calls.length = segs.length ∧
    ∀ i, i < segs.length → ∀ seg, segs[i]? = some seg →
      (synthesize_segments_tts roster segs dir voice lang wav).calls[i]? =
        some ⟨seg.text, joinPath dir (segmentFileName i),
          (synthesize_segments_tts roster segs dir voice lang wav).speaker, lang, wav⟩ := by
  refine ⟨synth_calls_length _ _ _ _ _ _, fun i hi seg hseg => ?_⟩
  rw [synth_calls_getElem, hseg, synth_speaker]
  rfl

/-- Claim C8 witness: a whitespace-only segment and an empty segment are
both passed verbatim to the engine. -/
theorem claim_C8_witness :
    (synthesize_segments_tts none [⟨0, 1, "Hello"⟩, ⟨1, 2, ""⟩, ⟨2, 3, "  "⟩]
      "d" none none none).calls[1]? =
      some ⟨"", joinPath "d" (segmentFileName 1),
        (synthesize_segments_tts none [⟨0, 1, "Hello"⟩, ⟨1, 2, ""⟩, ⟨2, 3, "  "⟩]
          "d" none none none).speaker, none, none⟩ :=
  (claim_C8_no_filtering none [⟨0, 1, "Hello"⟩, ⟨1, 2, ""⟩, ⟨2, 3, "  "⟩]
    "d" none none none).2 1 (by decide) ⟨1, 2, ""⟩ (by decide)

/-! ## Claim C6 -/

/-- A segment used to build long runs. -/
def segHello : Segment := ⟨0, 1, "hello"⟩

/-- A transcription with 10001 segments. -/
def manySegs : List Segment := List.replicate 10001 segHello

/-- Claim C6 counterexample: the zero-padding is fixed at width 4, so with
10001 segments the name of segment 10000 (`segment_10000.wav`, five
digits) sorts lexically BEFORE the name of segment 9999
(`segment_9999.wav`), violating "lexical name order equals segment order"
for this sequence. -/
theorem claim_C6_counterexample :
    ¬ (∀ i j : Nat, i < j → j < manySegs.length →
        ∀ a b,
          (synthesize_segments_tts none manySegs "d" none none none).out_files[i]? = some a →
          (synthesize_segments_tts none manySegs "d" none none none).out_files[j]? = some b →
          a < b) := by
  intro h
  have hlen : manySegs.length = 10001 := by
    show (List.replicate 10001 segHello).length = 10001
    rw [List.length_replicate]
  have h9999 : (synthesize_segments_tts none manySegs "d" none none none).out_files[9999]? =
      some (joinPath "d" (segmentFileName 9999)) := by
    rw [synth_out_files_getElem]
    have : manySegs[9999]? = some segHello :=
      List.getElem?_replicate_of_lt (by omega)
    rw [this]
    rfl
  have h10000 : (synthesize_segments_tts none manySegs "d" none none none).out_files[10000]? =
      some (joinPath "d" (segmentFileName 10000)) := by
    rw [synth_out_files_getElem]
    have : manySegs[10000]? = some segHello :=
      List.getElem?_replicate_of_lt (by omega)
    rw [this]
    rfl
  have hcontra := h 9999 10000 (by omega) (by omega) _ _ h9999 h10000
  have e1 : joinPath "d" (segmentFileName 9999) = "d/segment_9999.wav" := by decide
  have e2 : joinPath "d" (segmentFileName 10000) = "d/segment_10000.wav" := by decide
  rw [e1, e2, String.lt_iff_toList_lt] at hcontra
  exact absurd hcontra (by decide)

/-- Claim C6 (amended): the synthesis stage produces exactly one audio
file per segment, in index order, index-aligned with the input, each path
named by the zero-padded segment index; and for runs of at most 10000
segments (the width the 4-digit padding supports) lexical name order
equals segment order. -/
theorem claim_C6_synthesis_output (roster : Option (List String)) (segs : List Segment)
    (dir : String) (voice lang wav : Option String) :
    (synthesize_segments_tts roster segs dir voice lang wav).out_files.length = segs.length ∧
    (∀ i, i < segs.length →
      (synthesize_segments_tts roster segs dir voice lang wav).out_files[i]? =
        some (joinPath dir (segmentFileName i))) ∧
    (segs.length ≤ 10000 → ∀ i j : Nat, i < j → j < segs.length →
      ∀ a b,
        (synthesize_segments_tts roster segs dir voice lang wav).out_files[i]? = some a →
        (synthesize_segments_tts roster segs dir voice lang wav).out_files[j]? = some b →
        a < b) := by
  have hget : ∀ i, i < segs.length →
      (synthesize_segments_tts roster segs dir voice lang wav).out_files[i]? =
        some (joinPath dir (segmentFileName i)) := by
    intro i hi
    rw [synth_out_files_getElem]
    rw [List.getElem?_eq_getElem hi]
    rfl
  refine ⟨synth_out_files_length _ _ _ _ _ _, hget, fun hle i j hij hj a b ha hb => ?_⟩
  rw [hget i (by omega)] at ha
  rw [hget j hj] at hb
  have ea : a = joinPath dir (segmentFileName i) := by injection ha.symm
  have eb : b = joinPath dir (segmentFileName j) := by injection hb.symm
  rw [ea, eb]
  exact segmentPath_lt dir i j hij (by omega)

/-- Claim C6 witness: on a concrete three-segment run the output list is
index-aligned and the first two paths are in lexical order. -/
theorem claim_C6_witness :
    (synthesize_segments_tts none [⟨0, 1, "Hello"⟩, ⟨1, 2, ""⟩, ⟨2, 3, "World"⟩]
      "d" none none none).out_files[1]? = some (joinPath "d" (segmentFileName 1)) ∧
    joinPath "d" (segmentFileName 0) < joinPath "d" (segmentFileName 1) := by
  have h := claim_C6_synthesis_output none [⟨0, 1, "Hello"⟩, ⟨1, 2, ""⟩, ⟨2, 3, "World"⟩]
    "d" none none none
  refine ⟨h.2.1 1 (by decide), ?_⟩
  exact h.2.2 (by decide) 0 1 (by decide) (by decide) _ _
    (h.2.1 0 (by decide)) (h.2.1 1 (by decide))

/-! ## Claim C7 -/

/-- Claim C7: the concat directive file lists exactly the input paths, in
list order, one line per input occurrence — no reordering, dropping or
de-duplication — and the ffmpeg invocation uses stream copy (`-c copy`,
lossless). -/
theorem claim_C7_concat_order (abspath : String → String) (files : List String)
    (output_path : String) :
    (concatenate_audio abspath files output_path).listLines.length = files.length ∧
    (∀ i, i < files.length → ∀ f, files[i]? = some f →
      (concatenate_audio abspath files output_path).listLines[i]? =
        some (fileLine abspath f)) ∧
    (∃ pre post, (concatenate_audio abspath files output_path).cmd =
      pre ++ ["-c", "copy"] ++ post) := by
  refine ⟨by simp [concatenate_audio], fun i hi f hf => ?_, ?_⟩
  · show (files.map (fileLine abspath))[i]? = _
    rw [List.getElem?_map, hf]
    rfl
  · exact ⟨["ffmpeg", "-y", "-f", "concat", "-safe", "0", "-i", output_path ++ "_list.txt"],
      [output_path], rfl⟩

/-- Claim C7 witness: duplicate inputs are kept, one line per occurrence,
in order. -/
theorem claim_C7_witness :
    (concatenate_audio id ["a.wav", "a.wav", "b.wav"] "full.wav").listLines.length = 3 ∧
    (concatenate_audio id ["a.wav", "a.wav", "b.wav"] "full.wav").listLines[1]? =
      some (fileLine id "a.wav") := by
  have h := claim_C7_concat_order id ["a.wav", "a.wav", "b.wav"] "full.wav"
  exact ⟨h.1, h.2.1 1 (by decide) "a.wav" (by decide)⟩

/-! ## Claim C9 -/

/-- Claim C9: the remux command copies the video codec (`-c:v copy`, no
re-encoding, hence a bit-identical video stream), takes its two inputs in
the order original video then concatenated synthesized audio, and maps
exactly the first video stream of input 0 and the first audio stream of
input 1 — the original audio is mapped nowhere, hence discarded, and the
new audio is the sole audio track. -/
theorem claim_C9_remux_mapping (video_path audio_path output_path : String)
    (hv1 : video_path ≠ "-map") (ha1 : audio_path ≠ "-map")
    (hv2 : video_path ≠ "-c:v") (ha2 : audio_path ≠ "-c:v") :
    flagValues "-i" (combine_audio_video video_path audio_path output_path) =
      [video_path, audio_path] ∧
    flagValues "-map" (combine_audio_video video_path audio_path output_path) =
      ["0:v:0", "1:a:0"] ∧
    flagValues "-c:v" (combine_audio_video video_path audio_path output_path) = ["copy"] := by
  refine ⟨?_, ?_, ?_⟩ <;>
    simp [combine_audio_video, flagValues, hv1, ha1, hv2, ha2]

/-- Claim C9 witness at concrete paths. -/
theorem claim_C9_witness :
    flagValues "-map" (combine_audio_video "in.mp4" "tts_full.wav" "out.mp4") =
      ["0:v:0", "1:a:0"] :=
  (claim_C9_remux_mapping "in.mp4" "tts_full.wav" "out.mp4"
    (by decide) (by decide) (by decide) (by decide)).2.1

end DubVideo
